import Mathlib

/-!
Shallow embedding of the lazy-loading image hooks of this repository:
the load-transition hook `useImageOnLoad`, the visibility hook
`useIntersectionObserver`, and the composed `Image` component that gates
the high-resolution element on visibility.

DOM elements are identified by natural numbers.  The environment
(React effect scheduling, the IntersectionObserver primitive, and the
img element's load signal) is modelled by an explicit event alphabet
acting on the hook state.  One run of the effect body, together with the
cleanup of the previous effect run that React performs before it, is the
`bind` operation; the unmount cleanup is `dispose`; a callback invocation
by the observer primitive is `updateEntry`.
-/

namespace LazyImage

/-- A report from the visibility primitive (an IntersectionObserverEntry).
Only `isIntersecting` is read by the hook; the remaining fields are
carried opaquely. -/
structure IntersectionSnapshot where
  isIntersecting : Bool
  ratio : ℚ
  target : Nat
  time : Nat
  deriving DecidableEq

/-- State of `useImageOnLoad`: the single `isLoaded` boolean held in
`useState(false)`. -/
structure AssetLoadState where
  isLoaded : Bool
  deriving DecidableEq

/-- The handler `handleImageOnLoad`, which performs `setIsLoaded(true)`. -/
def handleImageOnLoad (s : AssetLoadState) : AssetLoadState :=
  { s with isLoaded := true }

/-- An inline style fragment: exactly the fields the hook sets. -/
structure StyleFragment where
  opacity : Nat
  filter : Option String
  transition : String
  deriving DecidableEq

/-- The pair of style fragments returned by `useImageOnLoad`. -/
structure TransitionStyles where
  lowRes : StyleFragment
  highRes : StyleFragment
  deriving DecidableEq

/-- The meaning of a CSS `transition` shorthand value of the form
`property duration timing-function delay`. -/
structure CSSTransition where
  property : String
  durationMs : Nat
  timingFunction : String
  delayMs : Nat
  deriving DecidableEq

/-- Renders a structured transition as the CSS shorthand string. -/
def CSSTransition.shorthand (t : CSSTransition) : String :=
  t.property ++ " " ++ toString t.durationMs ++ "ms " ++ t.timingFunction
    ++ " " ++ toString t.delayMs ++ "ms"

/-- The object `transitionStyles` computed by `useImageOnLoad` on every
render, as a function of the hook state. -/
def transitionStyles (s : AssetLoadState) : TransitionStyles :=
  { lowRes := { opacity := if s.isLoaded then 0 else 1,
                filter := some ("blur(2px)"),
                transition := "opacity 500ms ease-out 50ms" },
    highRes := { opacity := if s.isLoaded then 1 else 0,
                 filter := none,
                 transition := "opacity 500ms ease-in 50ms" } }

/-- One IntersectionObserver instance ever created by the hook: a
numeric identity, the element it was told to observe, and whether it is
still connected (observing). -/
structure Observation where
  id : Nat
  target : Nat
  connected : Bool
  deriving DecidableEq

/-- State of `useIntersectionObserver`: the log of every observer the
hook created (so that leaked observations are accounted for), the
observer held in the `observer` ref, the observer captured by the effect
cleanup currently registered with React, the `entry` state, and a
counter supplying fresh observer identities. -/
structure Binding where
  observations : List Observation
  observerCurrent : Option Nat
  pendingCleanup : Option Nat
  entry : Option IntersectionSnapshot
  nextId : Nat
  deriving DecidableEq

namespace Binding

/-- The hook state at mount: no observer, no entry. -/
def init : Binding := ⟨[], none, none, none, 0⟩

/-- The effect of `disconnect()` on observer `i`: it stops observing. -/
def disconnect (b : Binding) (i : Nat) : Binding :=
  { b with observations :=
      b.observations.map fun o => if o.id = i then { o with connected := false } else o }

/-- Runs the effect cleanup currently registered with React, if any:
the closure `() => currentObserver.disconnect()`. -/
def runCleanup (b : Binding) : Binding :=
  match b.pendingCleanup with
  | some i => { b.disconnect i with pendingCleanup := none }
  | none => b

/-- The guard `if (observer.current) observer.current.disconnect()` in
the effect body. -/
def disconnectCurrent (b : Binding) : Binding :=
  match b.observerCurrent with
  | some i => b.disconnect i
  | none => b

/-- The tail of the effect body: `observer.current = new
IntersectionObserver(updateEntry, options)`, then
`currentObserver.observe(node)`, then registration of the cleanup
`() => currentObserver.disconnect()`. -/
def startObservation (b : Binding) (node : Nat) : Binding :=
  { b with
    observations := b.observations ++ [⟨b.nextId, node, true⟩],
    observerCurrent := some b.nextId,
    pendingCleanup := some b.nextId,
    nextId := b.nextId + 1 }

/-- One run of the effect with `elementRef?.current = t`.  React runs
the cleanup of the previous effect run first; then the body early
returns when the node is absent, and otherwise disconnects any observer
in the ref and starts a fresh observation. -/
def bind (b : Binding) (t : Option Nat) : Binding :=
  let b1 := b.runCleanup
  match t with
  | none => b1
  | some node => (b1.disconnectCurrent).startObservation node

/-- The observer callback `updateEntry`, which performs
`setEntry(entries[0])`; on an empty array the JS index read yields
undefined, modelled by `List.head?`. -/
def updateEntry (b : Binding) (entries : List IntersectionSnapshot) : Binding :=
  { b with entry := entries.head? }

/-- The unmount teardown: React runs the registered effect cleanup. -/
def dispose (b : Binding) : Binding := b.runCleanup

/-- The returned boolean `isVisible: !!entry?.isIntersecting`. -/
def isVisible (b : Binding) : Bool :=
  (b.entry.map (fun e => e.isIntersecting)).getD false

/-- The observations of this binding that are currently connected. -/
def activeObservations (b : Binding) : List Observation :=
  b.observations.filter fun o => o.connected

/-- The element currently under active observation, if any (the code
stores no separate target field; the target lives in the observer). -/
def currentTarget (b : Binding) : Option Nat :=
  ((b.observations.find? fun o => o.connected).map fun o => o.target)

end Binding

/-- The external events delivered to one mounted component instance. -/
inductive Event where
  | highResLoad
  | bind (target : Option Nat)
  | deliver (entries : List IntersectionSnapshot)
  | dispose
  deriving DecidableEq

/-- How one event acts on the visibility hook state (the image load
signal does not touch it). -/
def Binding.step (b : Binding) (e : Event) : Binding :=
  match e with
  | Event.bind t => b.bind t
  | Event.deliver es => b.updateEntry es
  | Event.dispose => b.dispose
  | Event.highResLoad => b

/-- The visibility hook state after a trace of events from a fresh
mount. -/
def Binding.run (trace : List Event) : Binding :=
  trace.foldl Binding.step Binding.init

/-- The composed `Image` component state: one `useImageOnLoad` and one
`useIntersectionObserver`. -/
structure ProgressiveImage where
  loadState : AssetLoadState
  binding : Binding
  deriving DecidableEq

/-- A freshly mounted `Image`. -/
def ProgressiveImage.init : ProgressiveImage := ⟨⟨false⟩, Binding.init⟩

/-- The component renders the high-resolution img element exactly when
`isVisible` holds (the conditional render in the JSX). -/
def shouldRenderHighFidelity (p : ProgressiveImage) : Bool :=
  p.binding.isVisible

/-- One event acting on the composed component.  The load signal can
only fire from the high-resolution img element, which exists in the DOM
only while it is rendered, i.e. while `isVisible` holds. -/
def ProgressiveImage.step (p : ProgressiveImage) (e : Event) : ProgressiveImage :=
  match e with
  | Event.highResLoad =>
      if shouldRenderHighFidelity p then
        { p with loadState := handleImageOnLoad p.loadState }
      else p
  | _ => { p with binding := p.binding.step e }

/-- The component state reached from `p` after a trace of events. -/
def ProgressiveImage.runFrom (p : ProgressiveImage) (trace : List Event) : ProgressiveImage :=
  trace.foldl ProgressiveImage.step p

/-- The component state after a trace of events from a fresh mount. -/
def ProgressiveImage.run (trace : List Event) : ProgressiveImage :=
  ProgressiveImage.runFrom ProgressiveImage.init trace

/-- Invariant of the visibility hook: either no observation is
connected, or exactly one is and it is the one the registered effect
cleanup would disconnect. -/
def oneActiveInv (b : Binding) : Prop :=
  b.activeObservations = [] ∨
    ∃ o : Observation, b.activeObservations = [o] ∧ b.pendingCleanup = some o.id

/-- Events whose effect-run argument carries no concrete target. -/
def noRealBind (e : Event) : Bool :=
  match e with
  | Event.bind (some _) => false
  | _ => true

/-- Folding an event onto the stored entry: a snapshot delivery
overwrites it with the head of the batch, everything else keeps it. -/
def entryFold (e : Option IntersectionSnapshot) (ev : Event) : Option IntersectionSnapshot :=
  match ev with
  | Event.deliver es => es.head?
  | _ => e

/-- The head snapshot of the most recently delivered batch in a trace. -/
def lastDeliveredHead (trace : List Event) : Option IntersectionSnapshot :=
  trace.foldl entryFold none

/-- A snapshot reporting intersection. -/
def snapIn : IntersectionSnapshot := ⟨true, 1, 1, 0⟩

/-- A snapshot reporting no intersection. -/
def snapOut : IntersectionSnapshot := ⟨false, 0, 1, 1⟩

/-! Helper lemmas about the visibility hook state. -/

theorem filter_map_disconnect (i : Nat) :
    ∀ l : List LazyImage.Observation,
      ((l.map fun o => if o.id = i then { o with connected := false } else o).filter
          fun o => o.connected)
        = ((l.filter fun o => o.connected).filter fun o => o.id != i)
  | [] => rfl
  | o :: l => by
    have ih := filter_map_disconnect i l
    by_cases h : o.id = i
    · cases hc : o.connected <;>
        simp [List.filter_cons, h, hc, ih]
    · cases hc : o.connected <;>
        simp [List.filter_cons, h, hc, ih]

theorem disconnect_active (b : Binding) (i : Nat) :
    (b.disconnect i).activeObservations
      = (b.activeObservations.filter fun o => o.id != i) :=
  filter_map_disconnect i b.observations

theorem disconnect_entry (b : Binding) (i : Nat) :
    (b.disconnect i).entry = b.entry := rfl

theorem disconnect_nextId (b : Binding) (i : Nat) :
    (b.disconnect i).nextId = b.nextId := rfl

theorem runCleanup_entry (b : Binding) : b.runCleanup.entry = b.entry := by
  cases h : b.pendingCleanup <;> simp [Binding.runCleanup, h, Binding.disconnect]

theorem runCleanup_nextId (b : Binding) : b.runCleanup.nextId = b.nextId := by
  cases h : b.pendingCleanup <;> simp [Binding.runCleanup, h, Binding.disconnect]

theorem runCleanup_self (b : Binding) (hb : b.pendingCleanup = none) :
    b.runCleanup = b := by
  simp [Binding.runCleanup, hb]

theorem runCleanup_active (b : Binding) (hb : oneActiveInv b) :
    b.runCleanup.activeObservations = [] := by
  cases hp : b.pendingCleanup with
  | none =>
    rcases hb with h | ⟨o, _, hP⟩
    · simpa [Binding.runCleanup, hp] using h
    · rw [hp] at hP; exact absurd hP (by simp)
  | some i =>
    have h1 : b.runCleanup = { b.disconnect i with pendingCleanup := none } := by
      simp [Binding.runCleanup, hp]
    have h2 : ({ b.disconnect i with pendingCleanup := none } : Binding).activeObservations
        = (b.disconnect i).activeObservations := rfl
    rw [h1, h2, disconnect_active]
    rcases hb with h | ⟨o, ho, hP⟩
    · rw [h]; rfl
    · rw [ho]
      rw [hp] at hP
      have hio : i = o.id := Option.some.inj hP
      simp [List.filter_cons, hio]

theorem disconnectCurrent_entry (b : Binding) :
    b.disconnectCurrent.entry = b.entry := by
  cases h : b.observerCurrent <;> simp [Binding.disconnectCurrent, h, Binding.disconnect]

theorem disconnectCurrent_nextId (b : Binding) :
    b.disconnectCurrent.nextId = b.nextId := by
  cases h : b.observerCurrent <;> simp [Binding.disconnectCurrent, h, Binding.disconnect]

theorem disconnectCurrent_active_nil (b : Binding) (hb : b.activeObservations = []) :
    b.disconnectCurrent.activeObservations = [] := by
  cases h : b.observerCurrent with
  | none => simpa [Binding.disconnectCurrent, h] using hb
  | some i => rw [Binding.disconnectCurrent, h, disconnect_active, hb]; rfl

theorem startObservation_active (b : Binding) (node : Nat) :
    (b.startObservation node).activeObservations
      = b.activeObservations ++ [⟨b.nextId, node, true⟩] := by
  unfold Binding.startObservation Binding.activeObservations
  simp [List.filter_append, List.filter_cons]

theorem bind_some_active (b : Binding) (t : Nat) (hb : oneActiveInv b) :
    (b.bind (some t)).activeObservations = [⟨b.nextId, t, true⟩] := by
  have h1 := runCleanup_active b hb
  have h2 := disconnectCurrent_active_nil b.runCleanup h1
  show ((b.runCleanup.disconnectCurrent).startObservation t).activeObservations = _
  rw [startObservation_active, h2, disconnectCurrent_nextId, runCleanup_nextId]
  rfl

theorem bind_entry (b : Binding) (t : Option Nat) : (b.bind t).entry = b.entry := by
  cases t with
  | none => exact runCleanup_entry b
  | some node =>
    show ((b.runCleanup.disconnectCurrent).startObservation node).entry = b.entry
    have h1 : ((b.runCleanup.disconnectCurrent).startObservation node).entry
        = (b.runCleanup.disconnectCurrent).entry := rfl
    rw [h1, disconnectCurrent_entry, runCleanup_entry]

theorem inv_init : oneActiveInv Binding.init := Or.inl rfl

theorem inv_step (b : Binding) (e : Event) (hb : oneActiveInv b) :
    oneActiveInv (b.step e) := by
  cases e with
  | highResLoad => exact hb
  | dispose => exact Or.inl (runCleanup_active b hb)
  | deliver es =>
    rcases hb with h | ⟨o, ho, hP⟩
    · exact Or.inl h
    · exact Or.inr ⟨o, ho, hP⟩
  | bind t =>
    cases t with
    | none => exact Or.inl (runCleanup_active b hb)
    | some node =>
      refine Or.inr ⟨⟨b.nextId, node, true⟩, bind_some_active b node hb, ?_⟩
      show ((b.runCleanup.disconnectCurrent).startObservation node).pendingCleanup
          = some b.nextId
      show some ((b.runCleanup.disconnectCurrent).nextId) = some b.nextId
      rw [disconnectCurrent_nextId, runCleanup_nextId]

theorem inv_foldl : ∀ (l : List Event) (b : Binding),
    oneActiveInv b → oneActiveInv (l.foldl Binding.step b)
  | [], _, hb => hb
  | e :: l, b, hb => inv_foldl l (b.step e) (inv_step b e hb)

theorem inv_run (trace : List Event) : oneActiveInv (Binding.run trace) :=
  inv_foldl trace Binding.init inv_init

theorem dispose_entry (b : Binding) : b.dispose.entry = b.entry :=
  runCleanup_entry b

theorem step_pendingCleanup_none (b : Binding) (e : Event)
    (hb : b.pendingCleanup = none) (he : noRealBind e = true) :
    (b.step e).pendingCleanup = none := by
  cases e with
  | highResLoad => exact hb
  | deliver es => exact hb
  | dispose =>
    show b.runCleanup.pendingCleanup = none
    rw [runCleanup_self b hb]; exact hb
  | bind t =>
    cases t with
    | none =>
      show b.runCleanup.pendingCleanup = none
      rw [runCleanup_self b hb]; exact hb
    | some node => simp [noRealBind] at he

theorem noReal_foldl : ∀ (l : List Event) (b : Binding),
    l.all noRealBind = true → b.pendingCleanup = none
    → (l.foldl Binding.step b).pendingCleanup = none
  | [], _, _, hb => hb
  | e :: l, b, ha, hb => by
    rw [List.all_cons, Bool.and_eq_true] at ha
    exact noReal_foldl l (b.step e) ha.2 (step_pendingCleanup_none b e hb ha.1)

theorem noReal_pendingCleanup (trace : List Event)
    (h : trace.all noRealBind = true) :
    (Binding.run trace).pendingCleanup = none :=
  noReal_foldl trace Binding.init h rfl

theorem step_loadState (p : ProgressiveImage) (e : Event)
    (h : p.loadState.isLoaded = true) :
    (p.step e).loadState.isLoaded = true := by
  cases e with
  | highResLoad =>
    show (if shouldRenderHighFidelity p then
        { p with loadState := handleImageOnLoad p.loadState } else p).loadState.isLoaded = true
    split <;> simp [handleImageOnLoad, h]
  | bind t => exact h
  | deliver es => exact h
  | dispose => exact h

theorem runFrom_loadState : ∀ (l : List Event) (p : ProgressiveImage),
    p.loadState.isLoaded = true
    → (ProgressiveImage.runFrom p l).loadState.isLoaded = true
  | [], _, h => h
  | e :: l, p, h => runFrom_loadState l (p.step e) (step_loadState p e h)

theorem step_binding_entry (p : ProgressiveImage) (e : Event) :
    (p.step e).binding.entry = entryFold p.binding.entry e := by
  cases e with
  | highResLoad =>
    show (if shouldRenderHighFidelity p then
        { p with loadState := handleImageOnLoad p.loadState } else p).binding.entry
      = p.binding.entry
    split <;> rfl
  | bind t => exact bind_entry p.binding t
  | deliver es => rfl
  | dispose => exact dispose_entry p.binding

theorem run_entry : ∀ (trace : List Event) (p : ProgressiveImage),
    (ProgressiveImage.runFrom p trace).binding.entry
      = trace.foldl entryFold p.binding.entry
  | [], _ => rfl
  | e :: tr, p => by
    have h1 : ProgressiveImage.runFrom p (e :: tr)
        = ProgressiveImage.runFrom (p.step e) tr := rfl
    rw [h1, run_entry tr (p.step e), step_binding_entry]
    rfl

/-! Claims. -/

/-- Claim C1, counterexample: after an intersecting snapshot the flag
`shouldRenderHighFidelity` is true, but a later snapshot with
`isIntersecting = false` makes it false again, so it does not remain
true for the rest of the instance's life as claimed. -/
theorem shouldRender_not_latched_cex :
    shouldRenderHighFidelity
        (ProgressiveImage.run [Event.bind (some 1), Event.deliver [snapIn]]) = true
    ∧ shouldRenderHighFidelity
        (ProgressiveImage.run
          [Event.bind (some 1), Event.deliver [snapIn], Event.deliver [snapOut]]) = false :=
  ⟨rfl, rfl⟩

/-- Claim C1, amended: `shouldRenderHighFidelity` is false before any
snapshot has been delivered and otherwise equals the `isIntersecting`
flag of the first snapshot of the most recently delivered batch; in
particular it becomes true immediately after the first snapshot with
`isIntersecting = true`, but it is not latched: a later batch whose
first snapshot reports `isIntersecting = false` makes it false again. -/
theorem shouldRender_tracks_latest_entry :
    shouldRenderHighFidelity (ProgressiveImage.run []) = false
    ∧ ∀ trace : List Event,
        shouldRenderHighFidelity (ProgressiveImage.run trace)
          = (((lastDeliveredHead trace).map fun s => s.isIntersecting).getD false) := by
  refine ⟨rfl, ?_⟩
  intro trace
  show (((ProgressiveImage.run trace).binding.entry.map fun e => e.isIntersecting).getD false)
      = (((lastDeliveredHead trace).map fun s => s.isIntersecting).getD false)
  have h : ProgressiveImage.run trace
      = ProgressiveImage.runFrom ProgressiveImage.init trace := rfl
  rw [h, run_entry]
  rfl

/-- Claim C2: over every event trace, at most one observation of the
binding is connected at any time, and an effect run that starts a new
observation leaves exactly one connected observation, the fresh one —
every previously active observation has been disconnected first. -/
theorem bind_at_most_one_active :
    ∀ trace : List Event,
      (Binding.run trace).activeObservations.length ≤ 1
      ∧ ∀ t : Nat,
          ((Binding.run trace).bind (some t)).activeObservations
            = [⟨(Binding.run trace).nextId, t, true⟩] := by
  intro trace
  have h := inv_run trace
  constructor
  · rcases h with h1 | ⟨o, ho, _⟩
    · simp [h1]
    · simp [ho]
  · intro t
    exact bind_some_active _ t h

/-- Claim C3: the load handler is idempotent — applying it twice yields
the same state as applying it once — and the loaded flag is monotonic
over the whole life of a component instance: once true it stays true
under every further event. -/
theorem markLoaded_idempotent_monotone :
    (∀ s : AssetLoadState, handleImageOnLoad (handleImageOnLoad s) = handleImageOnLoad s)
    ∧ ∀ (p : ProgressiveImage) (trace : List Event),
        p.loadState.isLoaded = true
        → (ProgressiveImage.runFrom p trace).loadState.isLoaded = true := by
  exact ⟨fun s => rfl, fun p trace h => runFrom_loadState trace p h⟩

/-- Witness for claim C3 at concrete inputs. -/
theorem markLoaded_idempotent_monotone_witness :
    handleImageOnLoad (handleImageOnLoad ⟨false⟩) = handleImageOnLoad ⟨false⟩
    ∧ (ProgressiveImage.runFrom ⟨⟨true⟩, Binding.init⟩
        [Event.dispose, Event.deliver [snapOut]]).loadState.isLoaded = true :=
  ⟨markLoaded_idempotent_monotone.1 ⟨false⟩,
   markLoaded_idempotent_monotone.2 ⟨⟨true⟩, Binding.init⟩
     [Event.dispose, Event.deliver [snapOut]] rfl⟩

/-- Claim C4: the derived styles are a function of the loaded flag with
the literal values of the source — low-fidelity opaque and blurred and
high-fidelity transparent while not loaded, the reverse once loaded, and
both layers carrying an opacity transition of 500ms with a 50ms delay,
ease-out on the low-fidelity layer and ease-in on the high-fidelity
layer. -/
theorem transitionStyles_values :
    (transitionStyles ⟨false⟩).lowRes.opacity = 1
    ∧ (transitionStyles ⟨false⟩).lowRes.filter = some ("blur(2px)")
    ∧ (transitionStyles ⟨false⟩).highRes.opacity = 0
    ∧ (transitionStyles ⟨true⟩).lowRes.opacity = 0
    ∧ (transitionStyles ⟨true⟩).highRes.opacity = 1
    ∧ ∀ s : AssetLoadState,
        (transitionStyles s).lowRes.transition
            = CSSTransition.shorthand ⟨"opacity", 500, "ease-out", 50⟩
        ∧ (transitionStyles s).highRes.transition
            = CSSTransition.shorthand ⟨"opacity", 500, "ease-in", 50⟩ := by
  refine ⟨rfl, rfl, rfl, rfl, rfl, ?_⟩
  intro s
  exact ⟨rfl, rfl⟩

/-- Claim C5, counterexample: dispose does not clear the stored entry,
so after a delivered intersecting snapshot `isVisible` still returns
true right after `dispose()`, contradicting the claim that it returns
false after disposal. -/
theorem dispose_isVisible_cex :
    ((Binding.run [Event.bind (some 1), Event.deliver [snapIn]]).dispose).isVisible
      = true := rfl

/-- Claim C5, amended: `dispose()` is idempotent and total — repeated
calls equal one call and calling it on a never-bound binding is a no-op
— but it leaves the stored entry, hence `isVisible()`, unchanged; in
particular `isVisible()` is false after `dispose()` when no snapshot was
ever delivered, e.g. when no observation was ever bound. -/
theorem dispose_idempotent_total :
    (∀ b : Binding, b.dispose.dispose = b.dispose)
    ∧ Binding.init.dispose = Binding.init
    ∧ (∀ b : Binding, b.dispose.entry = b.entry ∧ b.dispose.isVisible = b.isVisible)
    ∧ Binding.init.dispose.isVisible = false := by
  refine ⟨?_, rfl, ?_, rfl⟩
  · intro b
    cases h : b.pendingCleanup with
    | none =>
      have hs : b.dispose = b := runCleanup_self b h
      rw [hs]; exact hs
    | some i =>
      have h1 : b.dispose = { b.disconnect i with pendingCleanup := none } := by
        simp [Binding.dispose, Binding.runCleanup, h]
      rw [h1]
      rfl
  · intro b
    have he : b.dispose.entry = b.entry := dispose_entry b
    refine ⟨he, ?_⟩
    show ((b.dispose.entry.map fun e => e.isIntersecting).getD false)
        = ((b.entry.map fun e => e.isIntersecting).getD false)
    rw [he]

/-- Claim C6: an effect run whose target is absent is skipped silently —
if no concrete target was ever supplied the binding state is left
exactly as it was; in every case it leaves no connected observation, no
currently observed target, and the stored entry untouched. -/
theorem bind_absent_skips :
    (∀ trace : List Event, trace.all noRealBind = true →
        (Binding.run trace).bind none = Binding.run trace)
    ∧ ∀ trace : List Event,
        ((Binding.run trace).bind none).activeObservations = []
        ∧ ((Binding.run trace).bind none).currentTarget = none
        ∧ ((Binding.run trace).bind none).entry = (Binding.run trace).entry := by
  constructor
  · intro trace h
    exact runCleanup_self _ (noReal_pendingCleanup trace h)
  · intro trace
    have hact : ((Binding.run trace).bind none).activeObservations = [] :=
      runCleanup_active _ (inv_run trace)
    refine ⟨hact, ?_, runCleanup_entry _⟩
    have hfind : (((Binding.run trace).bind none).observations.find?
        fun o => o.connected) = none := by
      rw [List.find?_eq_none]
      intro x hx hcx
      have hmem : x ∈ ((Binding.run trace).bind none).activeObservations :=
        List.mem_filter.mpr ⟨hx, hcx⟩
      rw [hact] at hmem
      exact absurd hmem (List.not_mem_nil x)
    show ((((Binding.run trace).bind none).observations.find?
        fun o => o.connected).map fun o => o.target) = none
    rw [hfind]
    rfl

/-- Witness for claim C6 at concrete inputs. -/
theorem bind_absent_skips_witness :
    ([Event.deliver [snapIn], Event.dispose].all noRealBind = true
      ∧ (Binding.run [Event.deliver [snapIn], Event.dispose]).bind none
          = Binding.run [Event.deliver [snapIn], Event.dispose])
    ∧ ((Binding.run [Event.bind (some 2)]).bind none).activeObservations = [] :=
  ⟨⟨rfl, bind_absent_skips.1 [Event.deliver [snapIn], Event.dispose] rfl⟩,
   (bind_absent_skips.2 [Event.bind (some 2)]).1⟩

/-- Claim C7: a freshly constructed component has the high-fidelity
element not rendered, the loaded flag false, a fully opaque and blurred
low-fidelity style and a fully transparent high-fidelity style. -/
theorem progressiveImage_initial_state :
    shouldRenderHighFidelity ProgressiveImage.init = false
    ∧ ProgressiveImage.init.loadState.isLoaded = false
    ∧ (transitionStyles ProgressiveImage.init.loadState).lowRes.opacity = 1
    ∧ (transitionStyles ProgressiveImage.init.loadState).lowRes.filter = some ("blur(2px)")
    ∧ (transitionStyles ProgressiveImage.init.loadState).highRes.opacity = 0 :=
  ⟨rfl, rfl, rfl, rfl, rfl⟩

/-- Claim C8: on a non-empty delivered batch the callback stores exactly
the first snapshot as the entry, regardless of the later snapshots of
the batch. -/
theorem updateEntry_keeps_first :
    ∀ (b : Binding) (s : IntersectionSnapshot) (rest : List IntersectionSnapshot),
      (b.updateEntry (s :: rest)).entry = some s :=
  fun _ _ _ => rfl

/-- Claim C9: the blur filter is applied to the low-fidelity style
unconditionally — for every value of the loaded flag — so once loading
completes the low-fidelity layer is transparent yet still carries the
blur filter. -/
theorem lowRes_blur_unconditional :
    (∀ s : AssetLoadState, (transitionStyles s).lowRes.filter = some ("blur(2px)"))
    ∧ (transitionStyles ⟨true⟩).lowRes.opacity = 0
    ∧ (transitionStyles ⟨true⟩).lowRes.filter = some ("blur(2px)") :=
  ⟨fun _ => rfl, rfl, rfl⟩

/-- Claim C10: the callback invoked with an empty batch stores an absent
entry, overwriting whatever was there, and `isVisible` then returns
false; no error is raised (the operation is total). -/
theorem updateEntry_empty_batch :
    ∀ b : Binding, (b.updateEntry []).entry = none ∧ (b.updateEntry []).isVisible = false :=
  fun _ => ⟨rfl, rfl⟩

end LazyImage
